import Mathlib

/-!
Verification development for the nuecms/storage-provider repository.

The TypeScript sources are shallowly embedded: byte buffers are `List Nat`,
object stores are functions `String → Option (List Nat)`, the local
filesystem is an association list from segment paths to entries, and every
fallible operation returns `Except`.  Key- and URL-derivation code is
translated function by function from the provider sources.
-/

namespace StorageSpec

/-! ## Character-list utilities (JS string operations used by the sources) -/

/-- Split a character list on `'/'`, keeping empty segments
(the behaviour of splitting a path string on its separator). -/
def splitSegs : List Char → List (List Char)
  | [] => [[]]
  | c :: rest =>
    let r := splitSegs rest
    if c = '/' then [] :: r
    else
      match r with
      | [] => [[c]]
      | s :: ss => (c :: s) :: ss

/-- JS `str.replace(/\/+/g, '/')`: collapse every run of slashes to one. -/
def collapseSlashes : List Char → List Char
  | [] => []
  | [a] => [a]
  | a :: b :: rest =>
    if a = '/' && b = '/' then collapseSlashes (b :: rest)
    else a :: collapseSlashes (b :: rest)

/-- JS `str.replace(/^\//, '')`: drop one leading slash. -/
def stripLeadingSlash : List Char → List Char
  | [] => []
  | c :: rest => if c = '/' then rest else c :: rest

/-- JS `str.replace(/\/+$/, '')`: drop the trailing run of slashes. -/
def stripTrailingSlashes (l : List Char) : List Char :=
  (l.reverse.dropWhile (· = '/')).reverse

/-- Join segment lists with `'/'`. -/
def joinSegs : List (List Char) → List Char
  | [] => []
  | [s] => s
  | s :: rest => s ++ '/' :: joinSegs rest

/-- The segment resolution loop of Node's `path.posix.normalize`
(`normalizeString`): drops empty and `"."` segments and resolves `".."`
against the accumulated stack; `allowAbove` keeps `".."` segments that
escape the root (relative paths). `acc` is the stack in reverse order. -/
def normStack (allowAbove : Bool) (acc : List (List Char)) :
    List (List Char) → List (List Char)
  | [] => acc.reverse
  | s :: rest =>
    if s = [] || s = ['.'] then normStack allowAbove acc rest
    else if s = ['.', '.'] then
      match acc with
      | t :: acc' =>
        if t = ['.', '.'] then normStack allowAbove (s :: t :: acc') rest
        else normStack allowAbove acc' rest
      | [] =>
        if allowAbove then normStack allowAbove [s] rest
        else normStack allowAbove [] rest
    else normStack allowAbove (s :: acc) rest

/-- Node `path.posix.normalize`. -/
def posixNormalize (l : List Char) : List Char :=
  if l = [] then ['.']
  else
    let isAbs := l.head? = some '/'
    let trail := l.getLast? = some '/'
    let core := joinSegs (normStack (!isAbs) [] (splitSegs l))
    if core = [] then
      if isAbs then ['/'] else if trail then ['.', '/'] else ['.']
    else
      (if isAbs then '/' :: core else core) ++ (if trail then ['/'] else [])

/-- Node `path.posix.join`: drop empty arguments, join with `'/'`,
normalize; `"."` when everything was empty. -/
def posixJoin (parts : List String) : String :=
  let ne := parts.filter (fun p => p ≠ "")
  if ne = [] then "."
  else String.mk (posixNormalize (joinSegs (ne.map String.data)))

/-- Path-string → non-empty segments (the view of a slash-joined path used
by the filesystem model; mirrors how `path.join` glues its arguments). -/
def segsOf (s : String) : List String :=
  ((splitSegs s.data).filter (fun seg => seg ≠ [])).map String.mk

/-- JS `str.replace(pat, '')` for a plain-string pattern: remove the first
occurrence of `pat`. -/
def removeFirst (pat : List Char) : List Char → List Char
  | [] => []
  | c :: rest =>
    if pat.isPrefixOf (c :: rest) then (c :: rest).drop pat.length
    else c :: removeFirst pat rest

/-! ## Key derivation (per adapter, from the sources) -/

/-- Source `S3Provider.upload` (S3Provider.ts lines 74–78): `path.posix.join` of
prefix/directory/fileName (directory branch guarded by JS truthiness),
then collapse repeated slashes and strip one leading slash. -/
def s3Key (pfx directory fileName : String) : String :=
  let filePath :=
    if directory ≠ "" then posixJoin [pfx, directory, fileName]
    else posixJoin [pfx, fileName]
  String.mk (stripLeadingSlash (collapseSlashes filePath.data))

/-- Source `AliyunOSSProvider.getObjectKey` (options-based adapter):
plain template join, no collapsing and no leading-slash stripping. -/
def ossObjectKey (pfx directory fileName : String) : String :=
  if directory ≠ "" then
    pfx ++ (if pfx ≠ "" then "/" else "") ++ directory ++ "/" ++ fileName
  else
    pfx ++ (if pfx ≠ "" then "/" else "") ++ fileName

/-- Source `QCloudCOSProvider.getObjectKey`: same template as the OSS adapter. -/
def cosObjectKey (pfx directory fileName : String) : String :=
  if directory ≠ "" then
    pfx ++ (if pfx ≠ "" then "/" else "") ++ directory ++ "/" ++ fileName
  else
    pfx ++ (if pfx ≠ "" then "/" else "") ++ fileName

/-- Modelled from the spec: the spec's `normalize`, which "collapses
repeated separators and strips a leading separator" (§3 ObjectKey, §4.2).
Used only to compare the spec's key formula with the adapters'. -/
def specNormalize (s : String) : String :=
  String.mk (stripLeadingSlash (collapseSlashes s.data))

/-- Modelled from the spec: the spec's uniform key formula
`normalize(prefix + '/' + directory + '/' + fileName)`. -/
def specObjectKey (pfx directory fileName : String) : String :=
  specNormalize (pfx ++ "/" ++ directory ++ "/" ++ fileName)

/-! ## Public-URL derivation (per adapter, from the sources)

The JS sources test `cdnDomain` (resp. `Domain`, `endpoint`) for truthiness;
an unset or empty string both select the backend-default template, so the
embedding uses `String` with `""` for "unset". -/

/-- The URL branch of `S3Provider.upload` (S3Provider.ts lines 89–110). -/
def s3UploadUrl (cdnDomain endpoint bucket region : String)
    (pathStyle : Bool) (key : String) : String :=
  if cdnDomain ≠ "" then
    String.mk (stripTrailingSlashes cdnDomain.data) ++ "/" ++ key
  else if endpoint ≠ "" then
    let e := String.mk (stripTrailingSlashes endpoint.data)
    if pathStyle then e ++ "/" ++ key
    else e ++ "/" ++ bucket ++ "/" ++ key
  else
    "https://" ++ bucket ++ ".s3." ++ region ++ ".amazonaws.com/" ++ key

/-- Source `AliyunOSSProvider.getObjectUrl` (options-based adapter).
`secure` is the JS `secure !== false` test, so only `some false` is http. -/
def ossObjectUrl (cdnDomain bucket region endpoint : String)
    (secure : Option Bool) (key : String) : String :=
  if cdnDomain ≠ "" then cdnDomain ++ "/" ++ key
  else
    let protocol := if secure ≠ some false then "https" else "http"
    let ep := if endpoint ≠ "" then endpoint else region ++ ".aliyuncs.com"
    protocol ++ "://" ++ bucket ++ "." ++ ep ++ "/" ++ key

/-- Source `QCloudCOSProvider.getObjectUrl`. -/
def cosObjectUrl (domain bucket region : String) (key : String) : String :=
  if domain ≠ "" then domain ++ "/" ++ key
  else "https://" ++ bucket ++ ".cos." ++ region ++ ".myqcloud.com/" ++ key

/-! ## Object stores and adapter operations

A cloud bucket is a map from object key to byte content.  Contents are
`List Nat` (byte values); `none` from a lookup models the backend's
NoSuchKey/NotFound error, which `download` re-throws. -/

/-- A cloud bucket: object key → stored bytes. -/
def Store : Type := String → Option (List Nat)

/-- The bucket with no objects. -/
def emptyStore : Store := fun _ => none

/-- Backend PUT: overwrite the object at `key`. -/
def storePut (st : Store) (key : String) (content : List Nat) : Store :=
  fun k => if k = key then some content else st k

/-- Modelled from the spec: cloud blob backends "return success on
idempotent delete" (§4.1), so backend DELETE is total — it removes the
object when present and succeeds either way.  (The backend SDKs are
external collaborators; this is their documented behaviour.) -/
def storeDelete (st : Store) (key : String) : Store :=
  fun k => if k = key then none else st k

/-- Source `S3Provider.upload`: PUT at the derived (prefixed) key. -/
def s3Upload (pfx : String) (st : Store) (file : List Nat)
    (fileName directory : String) : Store :=
  storePut st (s3Key pfx directory fileName) file

/-- Source `S3Provider.download`: GET with `Key: fileName` — the raw fileName,
no prefix or directory applied.  `none` models the re-thrown
NoSuchKey error. -/
def s3Download (st : Store) (fileName : String) : Option (List Nat) :=
  st fileName

/-- Options-based `AliyunOSSProvider.upload`. -/
def ossUpload (pfx : String) (st : Store) (file : List Nat)
    (fileName directory : String) : Store :=
  storePut st (ossObjectKey pfx directory fileName) file

/-- Options-based `AliyunOSSProvider.download`: GET at the derived key. -/
def ossDownload (pfx : String) (st : Store)
    (fileName directory : String) : Option (List Nat) :=
  st (ossObjectKey pfx directory fileName)

/-- Source `QCloudCOSProvider.upload`. -/
def cosUpload (pfx : String) (st : Store) (file : List Nat)
    (fileName directory : String) : Store :=
  storePut st (cosObjectKey pfx directory fileName) file

/-- Source `QCloudCOSProvider.download`. -/
def cosDownload (pfx : String) (st : Store)
    (fileName directory : String) : Option (List Nat) :=
  st (cosObjectKey pfx directory fileName)

/-! ## Local filesystem model

The local adapter builds paths with `path.join`; the model works on the
segment decomposition of those slash-joined paths.  A filesystem is an
association list from segment paths to entries (regular file with content,
or directory); node `fs` errors are the usual POSIX codes. -/

/-- A filesystem entry: a regular file with its bytes, or a directory. -/
inductive FsEntry : Type
  | file (content : List Nat) : FsEntry
  | dir : FsEntry
deriving DecidableEq

/-- POSIX error codes surfaced by the node `fs` calls the adapter makes. -/
inductive FsErr : Type
  | enoent
  | enotdir
  | eisdir
deriving DecidableEq

/-- A filesystem: paths (as segment lists) to entries. -/
def Fs : Type := List (List String × FsEntry)

/-- Look up the entry at a path. -/
def fsLookup (fs : Fs) (p : List String) : Option FsEntry :=
  match fs.find? (fun e => e.1 = p) with
  | some e => some e.2
  | none => none

/-- Remove every binding at a path. -/
def fsRemove (fs : Fs) (p : List String) : Fs :=
  fs.filter (fun e => e.1 ≠ p)

/-- Write (create or overwrite) a regular file at a path. -/
def fsWrite (fs : Fs) (p : List String) (content : List Nat) : Fs :=
  (p, FsEntry.file content) :: fsRemove fs p

/-- node `fs.unlink`: ENOENT when absent, EISDIR on a directory. -/
def fsUnlink (fs : Fs) (p : List String) : Except FsErr Fs :=
  match fsLookup fs p with
  | some (FsEntry.file _) => .ok (fsRemove fs p)
  | some FsEntry.dir => .error .eisdir
  | none => .error .enoent

/-- node `fs.readdir`: names of the immediate children of a directory;
ENOENT when the path is absent, ENOTDIR when it is a regular file. -/
def fsReaddir (fs : Fs) (p : List String) : Except FsErr (List String) :=
  match fsLookup fs p with
  | some FsEntry.dir =>
    .ok (fs.filterMap (fun e =>
      if e.1.take p.length = p then
        match e.1.drop p.length with
        | [n] => some n
        | _ => none
      else none))
  | some (FsEntry.file _) => .error .enotdir
  | none => .error .enoent

/-- node `fs.stat(...).isDirectory()`. -/
def fsStatIsDir (fs : Fs) (p : List String) : Except FsErr Bool :=
  match fsLookup fs p with
  | some FsEntry.dir => .ok true
  | some (FsEntry.file _) => .ok false
  | none => .error .enoent

/-- The path `path.join(basePath, directory, fileName)` used throughout the
`{basePath, baseUrl}` local adapter, as its segment decomposition. -/
def localPath (basePath directory fileName : String) : List String :=
  segsOf basePath ++ segsOf directory ++ segsOf fileName

/-- Source `LocalStorageProvider.upload` (`{basePath, baseUrl}` variant):
ensure the directory exists, then write the file. -/
def localUpload (fs : Fs) (basePath directory fileName : String)
    (file : List Nat) : Fs :=
  fsWrite fs (localPath basePath directory fileName) file

/-- Source `LocalStorageProvider.download`: `readFile`, ENOENT mapped to the
thrown "File not found" error (kept as `.error .enoent`). -/
def localDownload (fs : Fs) (basePath directory fileName : String) :
    Except FsErr (List Nat) :=
  match fsLookup fs (localPath basePath directory fileName) with
  | some (FsEntry.file c) => .ok c
  | some FsEntry.dir => .error .eisdir
  | none => .error .enoent

/-- A structured delete result `{success, message?}`. -/
structure DeleteRes : Type where
  success : Bool
  message : Option String
deriving DecidableEq

/-- Source `LocalStorageProvider.delete`: `unlink`; ENOENT is caught and turned
into `{success:false, message:'File not found'}`; other errors re-throw. -/
def localDelete (fs : Fs) (basePath directory fileName : String) :
    Fs × Except FsErr DeleteRes :=
  match fsUnlink fs (localPath basePath directory fileName) with
  | .ok fs' => (fs', .ok ⟨true, none⟩)
  | .error .enoent => (fs, .ok ⟨false, some "File not found"⟩)
  | .error e => (fs, .error e)

/-- The `Promise.all` of `stat` calls in `LocalStorageProvider.list`:
the directory flag of every listed name, the first error rejecting. -/
def statAll (fs : Fs) (p : List String) :
    List String → Except FsErr (List (String × Bool))
  | [] => .ok []
  | n :: rest =>
    match fsStatIsDir fs (p ++ [n]), statAll fs p rest with
    | .ok d, .ok xs => .ok ((n, d) :: xs)
    | .error e, _ => .error e
    | .ok _, .error e => .error e

/-- Source `LocalStorageProvider.list` before its catch clause: `readdir`, then
`stat` every entry and keep the non-directories. -/
def localListRaw (fs : Fs) (basePath directory : String) :
    Except FsErr (List String) :=
  match fsReaddir fs (segsOf basePath ++ segsOf directory) with
  | .error e => .error e
  | .ok files =>
    match statAll fs (segsOf basePath ++ segsOf directory) files with
    | .error e => .error e
    | .ok stats => .ok ((stats.filter (fun x => !x.2)).map (fun x => x.1))

/-- Source `LocalStorageProvider.list`: the catch clause maps ENOENT to `[]` and
re-throws every other error. -/
def localList (fs : Fs) (basePath directory : String) :
    Except FsErr (List String) :=
  match localListRaw fs basePath directory with
  | .error .enoent => .ok []
  | r => r

/-! ## Cloud delete and list operations -/

/-- Options-based `AliyunOSSProvider.delete`: backend delete at the derived
key, then `{success:true}` (backend delete is idempotent, see
`storeDelete`). -/
def ossDelete (pfx : String) (st : Store) (fileName directory : String) :
    Store × DeleteRes :=
  (storeDelete st (ossObjectKey pfx directory fileName), ⟨true, none⟩)

/-- Source `QCloudCOSProvider.delete`: backend delete (idempotent, statusCode 204)
then `{success: statusCode∈{200,204}, statusCode}`; the model returns the
success bit. -/
def cosDelete (pfx : String) (st : Store) (fileName directory : String) :
    Store × DeleteRes :=
  (storeDelete st (cosObjectKey pfx directory fileName), ⟨true, none⟩)

/-- Source `S3Provider.delete`: DeleteObject with `Key: fileName` (raw name),
result passed through. -/
def s3Delete (st : Store) (fileName : String) : Store × DeleteRes :=
  (storeDelete st fileName, ⟨true, none⟩)

/-- Legacy `AliyunOSSProvider.delete` (class-config variant):
`client.delete(fileName)` and resolve with no value. -/
def ossLegacyDelete (st : Store) (fileName : String) : Store × Unit :=
  (storeDelete st fileName, ())

/-- All object keys of a bucket that carry a given key prefix, in store
order — what ListObjects with a `Prefix` parameter returns. -/
def storeKeysWithPfx (keys : List String) (pfxStr : String) : List String :=
  keys.filter (fun k => pfxStr.data.isPrefixOf k.data)

/-- Source `S3Provider.list`: ListObjectsV2 over the bucket (no `Prefix` sent
unless the caller smuggles one through `context`); returns the object keys
unmodified. -/
def s3List (keys : List String) : List String :=
  keys

/-- The listing prefix of the options-based Aliyun adapter:
`getObjectKey('', {directory})` when a directory is given, else the
configured prefix. -/
def ossListPfx (pfx directory : String) : String :=
  if directory ≠ "" then ossObjectKey pfx directory "" else pfx

/-- Options-based `AliyunOSSProvider.list`: backend listing filtered by the
driving prefix, each returned key with the first occurrence of that prefix
removed (`obj.name.replace(prefix, '')`). -/
def ossList (pfx directory : String) (keys : List String) : List String :=
  (storeKeysWithPfx keys (ossListPfx pfx directory)).map
    (fun k => String.mk (removeFirst (ossListPfx pfx directory).data k.data))

/-- Source `QCloudCOSProvider.list`: same shape as the Aliyun adapter
(`item.Key.replace(prefix, '')`). -/
def cosList (pfx directory : String) (keys : List String) : List String :=
  (storeKeysWithPfx keys (ossListPfx pfx directory)).map
    (fun k => String.mk (removeFirst (ossListPfx pfx directory).data k.data))

/-! ## getUrl models

Signing itself is delegated to the backend SDKs (out of scope per §1 of the
spec), so the embedding records the observable request: whether a public or
a signed URL is produced, and with which expiry. -/

/-- The kind of URL an adapter's `getUrl` produces. -/
inductive UrlKind : Type
  | publicUrl
  | signedUrl
deriving DecidableEq

/-- Source `S3Provider.getUrl`: always calls `getSignedUrl`, with
`expiresIn = context.expiresIn || 300` (JS `||`, so `0` also falls back to
the 300-second default).  Returns the request kind and effective expiry. -/
def s3GetUrl (expiresIn : Option Nat) : UrlKind × Nat :=
  (UrlKind.signedUrl,
    match expiresIn with
    | some n => if n ≠ 0 then n else 300
    | none => 300)

/-- Options-based `AliyunOSSProvider.getUrl`: always the public
`getObjectUrl` — the context (and any `expiresIn` in it) is ignored. -/
def ossGetUrl (cdnDomain bucket region endpoint : String)
    (secure : Option Bool) (pfx fileName directory : String)
    (_expiresIn : Option Nat) : UrlKind × String :=
  (UrlKind.publicUrl,
    ossObjectUrl cdnDomain bucket region endpoint secure
      (ossObjectKey pfx directory fileName))

/-- Source `QCloudCOSProvider.getUrl`: always the public `getObjectUrl`. -/
def cosGetUrl (domain bucket region : String)
    (pfx fileName directory : String) (_expiresIn : Option Nat) :
    UrlKind × String :=
  (UrlKind.publicUrl,
    cosObjectUrl domain bucket region (cosObjectKey pfx directory fileName))

/-- Source `AliyunOSSProvider.getSignedUrl` (a separate method, not `getUrl`):
default parameter `expiresIn = 3600`. -/
def ossGetSignedUrl (expiresIn : Option Nat) : UrlKind × Nat :=
  (UrlKind.signedUrl, expiresIn.getD 3600)

/-- Source `QCloudCOSProvider.getSignedUrl`: default parameter 3600 as well. -/
def cosGetSignedUrl (expiresIn : Option Nat) : UrlKind × Nat :=
  (UrlKind.signedUrl, expiresIn.getD 3600)

/-! ## testConnection models

Each adapter performs one lightweight backend probe inside a `try` whose
`catch` returns a structured result, so the embedding is a total function
from the probe's outcome.  A backend error carries the JS error's
`name`, `code` and `message` fields. -/

/-- A backend/SDK error as the adapters inspect it. -/
structure BackendErr : Type where
  name : String
  code : String
  message : String
deriving DecidableEq

/-- The `{success, message}` result of `testConnection`. -/
structure TCResult : Type where
  success : Bool
  message : String
deriving DecidableEq

/-- Source `S3Provider.testConnection`: ListObjectsV2 with MaxKeys 1; the catch
clause maps well-known AWS error names to diagnostics. -/
def s3TestConnection (bucket : String) (probe : Except BackendErr Unit) :
    TCResult :=
  match probe with
  | .ok _ =>
    ⟨true, "S3 connection successful, credentials valid and bucket accessible"⟩
  | .error e =>
    ⟨false, "Connection failed: " ++
      (if e.name = "NoSuchBucket" then
        "Bucket \"" ++ bucket ++ "\" does not exist"
      else if e.name = "AccessDenied" then
        "Access denied, please check your permissions"
      else if e.name = "InvalidAccessKeyId" then "Invalid Access Key ID"
      else if e.name = "SignatureDoesNotMatch" then
        "Invalid Secret Access Key"
      else if e.name = "NetworkingError" || e.code = "ENOTFOUND" then
        "Network connection failed, please check region settings or network connection"
      else if e.message ≠ "" then e.message
      else "Unknown error")⟩

/-- Options-based `AliyunOSSProvider.testConnection`: list with max-keys 1,
catch-all to `{success:false, message}`. -/
def ossTestConnection (probe : Except BackendErr Unit) : TCResult :=
  match probe with
  | .ok _ => ⟨true, "Connection successful"⟩
  | .error e =>
    ⟨false, "Connection failed: " ++
      (if e.message ≠ "" then e.message else "Unknown error")⟩

/-- Source `QCloudCOSProvider.testConnection`: getBucket with MaxKeys 1,
catch-all to `{success:false, message}`. -/
def cosTestConnection (probe : Except BackendErr Unit) : TCResult :=
  match probe with
  | .ok _ => ⟨true, "Connection successful"⟩
  | .error e =>
    ⟨false, "Connection failed: " ++
      (if e.message ≠ "" then e.message else "Unknown error")⟩

/-- Source `{basePath, baseUrl}` `LocalStorageProvider.testConnection`:
`ensureDir(basePath)` (which itself swallows EEXIST), catch-all result. -/
def localTestConnection (probe : Except BackendErr Unit) : TCResult :=
  match probe with
  | .ok _ => ⟨true, "Local storage directory accessible"⟩
  | .error e =>
    if e.code = "EEXIST" then ⟨true, "Local storage directory accessible"⟩
    else
      ⟨false, "Connection failed: " ++
        (if e.message ≠ "" then e.message else "Unknown error")⟩

/-! ## Constructor validation (fail-fast) -/

/-- Source `S3Options` with `""` for absent fields (JS falsiness). -/
structure S3Options : Type where
  accessKeyId : String
  secretAccessKey : String
  region : String
  bucket : String
deriving DecidableEq

/-- Source `S3Provider.constructor`: throws `'S3Provider: Missing required
configuration'` when region, accessKeyId, secretAccessKey or bucket is
absent/empty; otherwise constructs. -/
def s3Construct (o : S3Options) : Except String Unit :=
  if o.region = "" || o.accessKeyId = "" || o.secretAccessKey = "" ||
      o.bucket = "" then
    .error "S3Provider: Missing required configuration"
  else .ok ()

/-- Legacy `AliyunOSSProvider.constructor` (class-config variant):
same fail-fast validation. -/
def ossLegacyConstruct (region accessKeyId accessKeySecret bucket : String) :
    Except String Unit :=
  if region = "" || accessKeyId = "" || accessKeySecret = "" || bucket = ""
  then .error "AliyunOSSProvider: Missing required configuration"
  else .ok ()

/-- Source `QCloudCOSOptions` fields relevant to validation. -/
structure QCloudCOSOptions : Type where
  secretId : String
  secretKey : String
  bucket : String
  region : String
deriving DecidableEq

/-- Source `QCloudCOSProvider.constructor`: no validation at all — it stores the
options and builds the COS client, whatever the fields are. -/
def cosConstruct (_o : QCloudCOSOptions) : Except String Unit :=
  .ok ()

/-- Source `AliyunOssOptions` fields relevant to validation. -/
structure AliyunOssOptions : Type where
  accessKeyId : String
  accessKeySecret : String
  bucket : String
  region : String
deriving DecidableEq

/-- Options-based `AliyunOSSProvider.constructor`: no validation either. -/
def ossOptionsConstruct (_o : AliyunOssOptions) : Except String Unit :=
  .ok ()

/-! ## Driver / registry -/

/-- The providers the driver's engine map can produce. -/
inductive ProviderTag : Type
  | localP
  | aliyunP
  | qcloudP
  | s3P
  | customP (name : String)
deriving DecidableEq

/-- Association-list lookup by string key. -/
def lookupName {α : Type} (m : List (String × α)) (name : String) :
    Option α :=
  match m.find? (fun e => e.1 = name) with
  | some e => some e.2
  | none => none

/-- Source `Driver.storageEngineMap`: the built-in engine names. -/
def defaultEngineMap : List (String × ProviderTag) :=
  [("local", .localP), ("aliyun", .aliyunP), ("qcloud", .qcloudP),
   ("s3", .s3P)]

/-- Source `Driver.initEngine`: look the storage name up in the engine map and
construct it, or throw `Storage provider "name" not found.`. -/
def initEngine (engineMap : List (String × ProviderTag)) (storage : String) :
    Except String ProviderTag :=
  match lookupName engineMap storage with
  | some p => .ok p
  | none => .error ("Storage provider \"" ++ storage ++ "\" not found.")

/-- The registry state of a `StorageDriver`. -/
structure DriverState : Type where
  providers : List (String × ProviderTag)
  defaultProvider : Option String
deriving DecidableEq

/-- Modelled from the spec: `StorageDriver.registerProvider` (the
`StorageDriver` class is imported by `index.ts` but absent from `src/`);
§4.3: "idempotent overwrite if name already present". -/
def registerProvider (st : DriverState) (name : String) (p : ProviderTag) :
    DriverState :=
  { st with providers := (name, p) :: st.providers.filter (fun e => e.1 ≠ name) }

/-- Modelled from the spec: `StorageDriver.setDefaultProvider`; §4.3:
"fails with `ProviderNotFoundError` if `name` is not registered". -/
def setDefaultProvider (st : DriverState) (name : String) :
    Except String DriverState :=
  if (lookupName st.providers name).isSome then
    .ok { st with defaultProvider := some name }
  else .error "ProviderNotFoundError"

/-- Source `createStorageDriver` (index.ts): register the given providers, then
set the default only when `options.defaultProvider` is truthy AND
`options.providers?.[name]` exists — an unregistered default name is
silently skipped.  Under that guard `setDefaultProvider` cannot fail. -/
def createStorageDriver (defaultName : Option String)
    (providers : List (String × ProviderTag)) : DriverState :=
  let st := providers.foldl
    (fun s e => registerProvider s e.1 e.2) ⟨[], none⟩
  match defaultName with
  | some n =>
    if n ≠ "" && (lookupName providers n).isSome then
      ((setDefaultProvider st n).toOption).getD st
    else st
  | none => st

end StorageSpec

namespace StorageSpec

example : s3Key "media" "2024/05" "a.png" = "media/2024/05/a.png" := by decide
example : ossObjectKey "media" "2024/05" "a.png" = "media/2024/05/a.png" := by decide
example : specObjectKey "media" "2024//05" "a.png" = "media/2024/05/a.png" := by decide
example : ossObjectKey "media" "2024//05" "a.png" = "media/2024//05/a.png" := by decide
example : s3Key "media" "" "a.png" = "media/a.png" := by decide
example : s3Key "" "" "a.png" = "a.png" := by decide
example : s3Key "/media/" "" "//a.png" = "media/a.png" := by decide

/-! ## Helper lemmas -/

/-- The first character survives `collapseSlashes`. -/
theorem collapse_head (c : Char) (l : List Char) :
    (collapseSlashes (c :: l)).head? = some c := by
  induction l generalizing c with
  | nil => rfl
  | cons b rest ih =>
    by_cases hc : c = '/' <;> by_cases hb : b = '/'
    · rw [show collapseSlashes (c :: b :: rest) = collapseSlashes (b :: rest)
        by simp [collapseSlashes, hc, hb]]
      rw [ih b, hb, hc]
    all_goals
      rw [show collapseSlashes (c :: b :: rest) = c :: collapseSlashes (b :: rest)
        by simp [collapseSlashes, hc, hb]]
      rfl

/-- Source `collapseSlashes` leaves no two adjacent slashes. -/
theorem collapse_chain (l : List Char) :
    List.Chain' (fun a b => ¬(a = '/' ∧ b = '/')) (collapseSlashes l) := by
  induction l with
  | nil => simp [collapseSlashes]
  | cons c t ih =>
    cases t with
    | nil => simp [collapseSlashes]
    | cons b rest =>
      by_cases hc : c = '/' <;> by_cases hb : b = '/'
      · rw [show collapseSlashes (c :: b :: rest) = collapseSlashes (b :: rest)
          by simp [collapseSlashes, hc, hb]]
        exact ih
      all_goals
        rw [show collapseSlashes (c :: b :: rest) = c :: collapseSlashes (b :: rest)
            by simp [collapseSlashes, hc, hb],
          List.chain'_cons']
        refine ⟨fun y hy => ?_, ih⟩
        rw [collapse_head b rest] at hy
        simp only [Option.mem_def, Option.some.injEq] at hy
        subst hy
        tauto

/-- After collapsing and stripping, the result has no leading slash and no
two adjacent slashes. -/
theorem stripCollapse_props (l : List Char) :
    (stripLeadingSlash (collapseSlashes l)).head? ≠ some '/' ∧
    List.Chain' (fun a b => ¬(a = '/' ∧ b = '/'))
      (stripLeadingSlash (collapseSlashes l)) := by
  have hchain := collapse_chain l
  cases hm : collapseSlashes l with
  | nil => simp [stripLeadingSlash]
  | cons a t =>
    rw [hm] at hchain
    by_cases ha : a = '/'
    · rw [show stripLeadingSlash (a :: t) = t by simp [stripLeadingSlash, ha]]
      refine ⟨?_, hchain.tail⟩
      cases t with
      | nil => simp
      | cons b t' =>
        have hrel := (List.chain'_cons'.mp hchain).1 b (by simp)
        subst ha
        simp only [List.head?_cons, ne_eq, Option.some.injEq]
        intro hb
        exact hrel ⟨rfl, hb⟩
    · rw [show stripLeadingSlash (a :: t) = a :: t
        by simp [stripLeadingSlash, ha]]
      exact ⟨by simpa using ha, hchain⟩

/-- A list is a `isPrefixOf` itself extended by anything. -/
theorem isPrefixOf_self_append (p l : List Char) :
    p.isPrefixOf (p ++ l) = true := by
  induction p with
  | nil => simp [List.isPrefixOf]
  | cons a as ih => simp [List.isPrefixOf, ih]

/-- Removing the first occurrence of a pattern that sits at the front. -/
theorem removeFirst_append (pat l : List Char) :
    removeFirst pat (pat ++ l) = l := by
  cases pat with
  | nil =>
    cases l with
    | nil => rfl
    | cons c rest => simp [removeFirst, List.isPrefixOf]
  | cons p ps =>
    show removeFirst (p :: ps) (p :: (ps ++ l)) = l
    rw [removeFirst]
    have hpre : (p :: ps).isPrefixOf (p :: ps ++ l) = true :=
      isPrefixOf_self_append (p :: ps) l
    simp only [List.cons_append] at hpre
    rw [if_pos hpre]
    simp [List.drop_left (p :: ps) l]

/-- Looking up the key just written into a store. -/
theorem storePut_get (st : Store) (key : String) (c : List Nat) :
    storePut st key c key = some c := by
  simp [storePut]

/-- Looking up the path just written into the filesystem. -/
theorem fsWrite_lookup (fs : Fs) (p : List String) (c : List Nat) :
    fsLookup (fsWrite fs p c) p = some (FsEntry.file c) := by
  simp [fsLookup, fsWrite, List.find?]

/-- With a non-empty directory, the OSS/COS object key is the listing
prefix followed by the file name. -/
theorem ossObjectKey_eq_listPfx_append (pfx directory fileName : String)
    (hd : directory ≠ "") :
    (ossObjectKey pfx directory fileName).data =
      (ossListPfx pfx directory).data ++ fileName.data := by
  simp only [ossObjectKey, ossListPfx, if_pos hd, ne_eq, hd,
    not_false_iff, if_true, String.data_append]
  by_cases hp : pfx = "" <;>
    simp [hp, String.data_append]

/-! ## Claims -/

/-- C1 (amended).  Round-trip: for the options-based Aliyun-OSS adapter,
the Tencent-COS adapter and the local `{basePath, baseUrl}` adapter,
`download(fileName, context)` after `upload(buffer, fileName, context)`
returns content byte-identical to the uploaded buffer for every buffer,
non-empty fileName, configured prefix and context directory.  For the S3
adapter this holds exactly when the derived upload key coincides with the
raw fileName (e.g. empty prefix and no directory), because `S3.download`
uses the raw fileName as the object key. -/
theorem c1_roundtrip (st : Store) (fs : Fs) (file : List Nat)
    (pfx directory fileName basePath : String) (_h : fileName ≠ "") :
    ossDownload pfx (ossUpload pfx st file fileName directory)
        fileName directory = some file ∧
    cosDownload pfx (cosUpload pfx st file fileName directory)
        fileName directory = some file ∧
    localDownload (localUpload fs basePath directory fileName file)
        basePath directory fileName = .ok file ∧
    (s3Key pfx directory fileName = fileName →
      s3Download (s3Upload pfx st file fileName directory) fileName
        = some file) := by
  refine ⟨?_, ?_, ?_, ?_⟩
  · simp [ossDownload, ossUpload, storePut_get]
  · simp [cosDownload, cosUpload, storePut_get]
  · simp [localDownload, localUpload, fsWrite_lookup]
  · intro hk
    simp [s3Download, s3Upload, storePut, hk]

/-- Witness for `c1_roundtrip` at concrete inputs. -/
theorem c1_roundtrip_witness :
    ("a.txt" : String) ≠ "" ∧
    (ossDownload "media" (ossUpload "media" emptyStore [7, 8] "a.txt" "sub")
        "a.txt" "sub" = some [7, 8] ∧
    cosDownload "media" (cosUpload "media" emptyStore [7, 8] "a.txt" "sub")
        "a.txt" "sub" = some [7, 8] ∧
    localDownload (localUpload [] "base" "sub" "a.txt" [7, 8])
        "base" "sub" "a.txt" = .ok [7, 8] ∧
    (s3Key "media" "sub" "a.txt" = "a.txt" →
      s3Download (s3Upload "media" emptyStore [7, 8] "a.txt" "sub") "a.txt"
        = some [7, 8])) :=
  ⟨by decide,
    c1_roundtrip emptyStore [] [7, 8] "media" "sub" "a.txt" "base" (by decide)⟩

/-- C1 counterexample: with a configured prefix `"media"` the S3 adapter
uploads `"a.png"` to key `"media/a.png"` but downloads from key `"a.png"`,
so the round-trip does not return the uploaded bytes (the GET sees no such
key). -/
theorem c1_s3_counterexample :
    s3Key "media" "" "a.png" = "media/a.png" ∧
    s3Download (s3Upload "media" emptyStore [1, 2] "a.png" "") "a.png"
      = none ∧
    s3Download (s3Upload "media" emptyStore [1, 2] "a.png" "") "a.png"
      ≠ some [1, 2] := by
  refine ⟨by decide, ?_, ?_⟩ <;>
    simp [s3Download, s3Upload, storePut, emptyStore, s3Key, posixJoin,
      posixNormalize, normStack, splitSegs, joinSegs, collapseSlashes,
      stripLeadingSlash]

/-- The adapters' derived keys never have a leading slash (this one). -/
def noLeadingSlash (s : String) : Prop := s.data.head? ≠ some '/'

/-- The adapters' derived keys never contain two adjacent slashes. -/
def noDoubleSlash (s : String) : Prop :=
  List.Chain' (fun a b => ¬(a = '/' ∧ b = '/')) s.data

/-- C2 (amended).  Key derivation is a pure deterministic function of
(prefix, directory, fileName) in every adapter — each adapter's derivation
is a (total) function in this embedding — and the example triple
(`media`, `2024/05`, `a.png`) derives `media/2024/05/a.png` in every
adapter.  The S3 adapter's key moreover satisfies the spec's `normalize`
guarantees (repeated separators collapsed, no leading separator), but the
Aliyun-OSS/Tencent-COS key is the plain slash-join of the non-empty parts
with no collapsing, so the uniform `normalize(prefix + '/' + directory +
'/' + fileName)` formula does not hold for those adapters. -/
theorem c2_key_derivation (pfx directory fileName : String) :
    noDoubleSlash (s3Key pfx directory fileName) ∧
    noLeadingSlash (s3Key pfx directory fileName) ∧
    cosObjectKey pfx directory fileName = ossObjectKey pfx directory fileName ∧
    (s3Key "media" "2024/05" "a.png" = "media/2024/05/a.png" ∧
     ossObjectKey "media" "2024/05" "a.png" = "media/2024/05/a.png" ∧
     cosObjectKey "media" "2024/05" "a.png" = "media/2024/05/a.png") := by
  refine ⟨(stripCollapse_props _).2, (stripCollapse_props _).1, rfl,
    by decide, by decide, by decide⟩

/-- C2 counterexample: the Aliyun-OSS adapter's derived key keeps the
redundant separator of directory `"2024//05"` that the spec's `normalize`
collapses, so the derived key differs from
`normalize(prefix + '/' + directory + '/' + fileName)`. -/
theorem c2_counterexample :
    ossObjectKey "media" "2024//05" "a.png" = "media/2024//05/a.png" ∧
    specObjectKey "media" "2024//05" "a.png" = "media/2024/05/a.png" ∧
    ossObjectKey "media" "2024//05" "a.png"
      ≠ specObjectKey "media" "2024//05" "a.png" := by
  refine ⟨by decide, by decide, by decide⟩

/-- C3 (amended).  The options-based Aliyun-OSS and Tencent-COS adapters
return listed names relative to the effective directory/prefix: the
backend is queried with the driving prefix and that prefix is stripped
from each returned key (for a non-empty directory the stripped name of an
uploaded object is exactly its fileName); the spec's scoping example holds
for them.  The S3 adapter, however, returns the backend object keys
unmodified (full keys, prefix not stripped). -/
theorem c3_list_scoping (pfx directory fileName : String)
    (keys : List String) (hd : directory ≠ "") :
    s3List keys = keys ∧
    ossList pfx directory [ossObjectKey pfx directory fileName]
      = [fileName] ∧
    cosList pfx directory [cosObjectKey pfx directory fileName]
      = [fileName] ∧
    ossList "" "sub" [ossObjectKey "" "sub" "a.txt",
      ossObjectKey "" "" "b.txt"] = ["a.txt"] := by
  have hkey := ossObjectKey_eq_listPfx_append pfx directory fileName hd
  have hkey2 : (cosObjectKey pfx directory fileName).data =
      (ossListPfx pfx directory).data ++ fileName.data := hkey
  refine ⟨rfl, ?_, ?_, by decide⟩
  · simp only [ossList, storeKeysWithPfx, List.filter, hkey,
      isPrefixOf_self_append, List.map]
    simp [removeFirst_append]
  · simp only [cosList, storeKeysWithPfx, List.filter, hkey2,
      isPrefixOf_self_append, List.map]
    simp [removeFirst_append]

/-- Witness for `c3_list_scoping` at concrete inputs. -/
theorem c3_list_scoping_witness :
    ("sub" : String) ≠ "" ∧
    (s3List ["x"] = ["x"] ∧
    ossList "media" "sub" [ossObjectKey "media" "sub" "a.txt"]
      = ["a.txt"] ∧
    cosList "media" "sub" [cosObjectKey "media" "sub" "a.txt"]
      = ["a.txt"] ∧
    ossList "" "sub" [ossObjectKey "" "sub" "a.txt",
      ossObjectKey "" "" "b.txt"] = ["a.txt"]) :=
  ⟨by decide, c3_list_scoping "media" "sub" "a.txt" ["x"] (by decide)⟩

/-- C3 counterexample: with prefix `"media"`, the S3 adapter's `list`
returns the full backend key `"media/a.txt"` of the object uploaded as
`"a.txt"`, not the prefix-stripped relative name. -/
theorem c3_s3_counterexample :
    s3Key "media" "" "a.txt" = "media/a.txt" ∧
    s3List ["media/a.txt"] = ["media/a.txt"] ∧
    s3List ["media/a.txt"] ≠ ["a.txt"] := by
  refine ⟨by decide, rfl, by decide⟩

/-- C4 (amended).  Fail-fast construction holds for the S3 adapter and the
legacy class-config Aliyun-OSS adapter: construction succeeds exactly when
every required credential/bucket/region field is non-empty, and throws
synchronously otherwise.  The Tencent-COS adapter and the options-based
Aliyun-OSS adapter perform no validation: they construct successfully
whatever the fields are. -/
theorem c4_failfast (o : S3Options)
    (region accessKeyId accessKeySecret bucket : String)
    (oc : QCloudCOSOptions) (oa : AliyunOssOptions) :
    (s3Construct o = .ok () ↔
      (o.region ≠ "" ∧ o.accessKeyId ≠ "" ∧ o.secretAccessKey ≠ "" ∧
        o.bucket ≠ "")) ∧
    (ossLegacyConstruct region accessKeyId accessKeySecret bucket = .ok () ↔
      (region ≠ "" ∧ accessKeyId ≠ "" ∧ accessKeySecret ≠ "" ∧
        bucket ≠ "")) ∧
    cosConstruct oc = .ok () ∧
    ossOptionsConstruct oa = .ok () := by
  refine ⟨?_, ?_, rfl, rfl⟩ <;>
  · simp only [s3Construct, ossLegacyConstruct]
    split_ifs with h <;> simp_all
    tauto

/-- C4 counterexample: constructing the Tencent-COS adapter (and the
options-based Aliyun-OSS adapter) with every required field empty does not
throw — construction succeeds. -/
theorem c4_cos_counterexample :
    cosConstruct ⟨"", "", "", ""⟩ = .ok () ∧
    ossOptionsConstruct ⟨"", "", "", ""⟩ = .ok () :=
  ⟨rfl, rfl⟩

/-- Looking a path up after removing it finds nothing. -/
theorem fsRemove_lookup (fs : Fs) (p : List String) :
    fsLookup (fsRemove fs p) p = none := by
  induction fs with
  | nil => rfl
  | cons e t ih =>
    by_cases h : e.1 = p <;>
      simp_all [fsRemove, fsLookup, List.filter_cons, List.find?]

/-- C5.  Delete idempotency: for every adapter, deleting the same
(possibly already-absent) key twice never throws on the second call.  The
cloud adapters' backend delete is idempotent (success whether or not the
key exists), so both calls return a success result; the local adapter's
second call returns the structured `{success:false, message:'File not
found'}` (its unlink sees ENOENT), provided the path is an object key and
not a directory. -/
theorem c5_delete_idempotent (st : Store) (fs : Fs)
    (pfx fileName directory basePath : String)
    (h : fsLookup fs (localPath basePath directory fileName)
      ≠ some FsEntry.dir) :
    (ossDelete pfx (ossDelete pfx st fileName directory).1
      fileName directory).2 = ⟨true, none⟩ ∧
    (cosDelete pfx (cosDelete pfx st fileName directory).1
      fileName directory).2 = ⟨true, none⟩ ∧
    (s3Delete (s3Delete st fileName).1 fileName).2 = ⟨true, none⟩ ∧
    (∃ r, (localDelete fs basePath directory fileName).2 = .ok r) ∧
    (localDelete (localDelete fs basePath directory fileName).1
      basePath directory fileName).2
      = .ok ⟨false, some "File not found"⟩ := by
  refine ⟨rfl, rfl, rfl, ?_, ?_⟩ <;>
  · cases hl : fsLookup fs (localPath basePath directory fileName) with
    | none => simp [localDelete, fsUnlink, hl]
    | some e =>
      cases e with
      | file c => simp [localDelete, fsUnlink, hl, fsRemove_lookup]
      | dir => exact absurd hl h

/-- Witness for `c5_delete_idempotent` at concrete inputs. -/
theorem c5_delete_idempotent_witness :
    fsLookup [(["base", "a.txt"], FsEntry.file [1])]
      (localPath "base" "" "a.txt") ≠ some FsEntry.dir ∧
    ((ossDelete "media"
        (ossDelete "media" emptyStore "a.txt" "").1 "a.txt" "").2
      = ⟨true, none⟩ ∧
    (cosDelete "media"
        (cosDelete "media" emptyStore "a.txt" "").1 "a.txt" "").2
      = ⟨true, none⟩ ∧
    (s3Delete (s3Delete emptyStore "a.txt").1 "a.txt").2 = ⟨true, none⟩ ∧
    (∃ r, (localDelete [(["base", "a.txt"], FsEntry.file [1])]
        "base" "" "a.txt").2 = .ok r) ∧
    (localDelete (localDelete [(["base", "a.txt"], FsEntry.file [1])]
        "base" "" "a.txt").1 "base" "" "a.txt").2
      = .ok ⟨false, some "File not found"⟩) :=
  ⟨by decide,
    c5_delete_idempotent emptyStore [(["base", "a.txt"], FsEntry.file [1])]
      "media" "a.txt" "" "base" (by decide)⟩

/-- C6.  CDN precedence: whenever `cdnDomain` (resp. `Domain`) is
configured, the public URL of every adapter that has the field is the CDN
authority followed by the object key (the S3 adapter first strips trailing
slashes from the domain), independent of region/endpoint/secure/path-style
configuration; the backend-default template is used only when the CDN
domain is unset. -/
theorem c6_cdn_precedence
    (cdn bucket region endpoint bucket2 region2 ep2 : String)
    (secure secure2 : Option Bool) (pathStyle pathStyle2 : Bool)
    (key : String) (h : cdn ≠ "") :
    ossObjectUrl cdn bucket region endpoint secure key
      = cdn ++ "/" ++ key ∧
    ossObjectUrl cdn bucket region endpoint secure key
      = ossObjectUrl cdn bucket2 region2 ep2 secure2 key ∧
    cosObjectUrl cdn bucket region key = cdn ++ "/" ++ key ∧
    s3UploadUrl cdn endpoint bucket region pathStyle key
      = String.mk (stripTrailingSlashes cdn.data) ++ "/" ++ key ∧
    s3UploadUrl cdn endpoint bucket region pathStyle key
      = s3UploadUrl cdn ep2 bucket2 region2 pathStyle2 key ∧
    ossObjectUrl "" bucket region "" secure key
      = (if secure ≠ some false then "https" else "http") ++ "://"
        ++ bucket ++ "." ++ region ++ ".aliyuncs.com/" ++ key := by
  refine ⟨?_, ?_, ?_, ?_, ?_, ?_⟩ <;>
  · simp [ossObjectUrl, cosObjectUrl, s3UploadUrl, h]
    try
      apply String.ext
      simp [String.data_append, List.append_assoc]

/-- Witness for `c6_cdn_precedence`: the spec's own example,
cdnDomain `https://cdn.example.com` and key `a.png`. -/
theorem c6_cdn_precedence_witness :
    ("https://cdn.example.com" : String) ≠ "" ∧
    (ossObjectUrl "https://cdn.example.com" "b" "r" "e" none "a.png"
      = "https://cdn.example.com" ++ "/" ++ "a.png" ∧
    ossObjectUrl "https://cdn.example.com" "b" "r" "e" none "a.png"
      = ossObjectUrl "https://cdn.example.com" "b2" "r2" "e2"
          (some false) "a.png" ∧
    cosObjectUrl "https://cdn.example.com" "b" "r" "a.png"
      = "https://cdn.example.com" ++ "/" ++ "a.png" ∧
    s3UploadUrl "https://cdn.example.com" "e" "b" "r" true "a.png"
      = String.mk
          (stripTrailingSlashes ("https://cdn.example.com" : String).data)
        ++ "/" ++ "a.png" ∧
    s3UploadUrl "https://cdn.example.com" "e" "b" "r" true "a.png"
      = s3UploadUrl "https://cdn.example.com" "e2" "b2" "r2" false "a.png" ∧
    ossObjectUrl "" "b" "r" "" none "a.png"
      = (if (none : Option Bool) ≠ some false then "https" else "http")
        ++ "://" ++ "b" ++ "." ++ "r" ++ ".aliyuncs.com/" ++ "a.png") :=
  ⟨by decide,
    c6_cdn_precedence "https://cdn.example.com" "b" "r" "e" "b2" "r2" "e2"
      none (some false) true false "a.png" (by decide)⟩

/-- C7 (amended).  `getUrl` does not switch on a requested expiry in any
adapter: the S3 adapter's `getUrl` always produces a signed URL, with
expiry `context.expiresIn` and the 300-second default when `expiresIn` is
absent (or `0`, by JS falsiness); the options-based Aliyun-OSS and
Tencent-COS adapters' `getUrl` always produce the public (CDN or
backend-default) URL and ignore any requested expiry, their signing living
in a separate `getSignedUrl` method whose default expiry is 3600
seconds. -/
theorem c7_geturl (cdn bucket region endpoint domain pfx fileName
    directory : String) (secure : Option Bool) (expiresIn : Option Nat)
    (n : Nat) :
    (s3GetUrl none).1 = UrlKind.signedUrl ∧
    (s3GetUrl none).2 = 300 ∧
    (s3GetUrl (some 0)).2 = 300 ∧
    (s3GetUrl (some (n + 1))).2 = n + 1 ∧
    (s3GetUrl expiresIn).1 = UrlKind.signedUrl ∧
    (ossGetUrl cdn bucket region endpoint secure pfx fileName directory
      expiresIn).1 = UrlKind.publicUrl ∧
    (cosGetUrl domain bucket region pfx fileName directory expiresIn).1
      = UrlKind.publicUrl ∧
    (ossGetSignedUrl none).2 = 3600 ∧
    (cosGetSignedUrl none).2 = 3600 := by
  refine ⟨rfl, rfl, rfl, by simp [s3GetUrl], ?_, rfl, rfl, rfl, rfl⟩
  cases expiresIn <;> rfl

/-- C7 counterexample: with no expiry requested the S3 adapter's `getUrl`
still produces a signed URL (not a public one), and with an expiry
requested the options-based Aliyun-OSS adapter's `getUrl` still produces a
public URL (not a signed one). -/
theorem c7_counterexample :
    (s3GetUrl none).1 = UrlKind.signedUrl ∧
    (ossGetUrl "" "b" "r" "" none "" "a.png" "" (some 60)).1
      = UrlKind.publicUrl ∧
    UrlKind.signedUrl ≠ UrlKind.publicUrl := by
  refine ⟨rfl, rfl, by decide⟩

/-- C8.  `testConnection` of every adapter that implements it is a total
function of the probe's outcome: success on a successful probe, and for
every backend error a structured `{success:false, message}` whose message
carries the `Connection failed: ` diagnostic — never a thrown error.  (The
local adapter additionally treats EEXIST from its mkdir as success, per
its `ensureDir`.) -/
theorem c8_testconnection (bucket : String) (e : BackendErr) :
    (s3TestConnection bucket (.ok ())).success = true ∧
    (s3TestConnection bucket (.error e)).success = false ∧
    (∃ rest, (s3TestConnection bucket (.error e)).message
      = "Connection failed: " ++ rest) ∧
    (ossTestConnection (.ok ())).success = true ∧
    (ossTestConnection (.error e)).success = false ∧
    (∃ rest, (ossTestConnection (.error e)).message
      = "Connection failed: " ++ rest) ∧
    (cosTestConnection (.ok ())).success = true ∧
    (cosTestConnection (.error e)).success = false ∧
    (∃ rest, (cosTestConnection (.error e)).message
      = "Connection failed: " ++ rest) ∧
    (localTestConnection (.ok ())).success = true ∧
    (localTestConnection (.error e)
        = ⟨true, "Local storage directory accessible"⟩ ∨
      ∃ rest, localTestConnection (.error e)
        = ⟨false, "Connection failed: " ++ rest⟩) := by
  refine ⟨rfl, rfl, ⟨_, rfl⟩, rfl, rfl, ⟨_, rfl⟩, rfl, rfl, ⟨_, rfl⟩,
    rfl, ?_⟩
  by_cases he : e.code = "EEXIST"
  · exact Or.inl (by simp [localTestConnection, he])
  · refine Or.inr ⟨if e.message ≠ "" then e.message else "Unknown error", ?_⟩
    simp [localTestConnection, he]

/-- Folding provider registrations never touches the default pointer. -/
theorem foldRegister_default (ps : List (String × ProviderTag))
    (st : DriverState) :
    (ps.foldl (fun s e => registerProvider s e.1 e.2) st).defaultProvider
      = st.defaultProvider := by
  induction ps generalizing st with
  | nil => rfl
  | cons e t ih => simpa [registerProvider] using ih _

/-- C9 (amended).  Referencing a name absent from the engine map as the
storage selected at `Driver` construction makes `initEngine` throw the
`Storage provider "name" not found.` error, and (spec-modelled
`StorageDriver`) `setDefaultProvider` on an unregistered name fails with
`ProviderNotFoundError`; but `createStorageDriver` with an unregistered
`defaultProvider` name does NOT fail — it silently skips setting the
default and returns a driver whose default pointer is unset. -/
theorem c9_registry (storage n : String) (st : DriverState)
    (ps : List (String × ProviderTag))
    (h1 : lookupName defaultEngineMap storage = none)
    (h2 : lookupName st.providers n = none)
    (h3 : lookupName ps n = none) :
    initEngine defaultEngineMap storage
      = .error ("Storage provider \"" ++ storage ++ "\" not found.") ∧
    setDefaultProvider st n = .error "ProviderNotFoundError" ∧
    (createStorageDriver (some n) ps).defaultProvider = none := by
  refine ⟨by simp [initEngine, h1], by simp [setDefaultProvider, h2], ?_⟩
  simp [createStorageDriver, h3, foldRegister_default]

/-- Witness for `c9_registry` at concrete inputs. -/
theorem c9_registry_witness :
    lookupName defaultEngineMap "bogus" = none ∧
    lookupName (DriverState.mk [] none).providers "x" = none ∧
    lookupName ([] : List (String × ProviderTag)) "x" = none ∧
    (initEngine defaultEngineMap "bogus"
      = .error ("Storage provider \"" ++ "bogus" ++ "\" not found.") ∧
    setDefaultProvider ⟨[], none⟩ "x" = .error "ProviderNotFoundError" ∧
    (createStorageDriver (some "x") []).defaultProvider = none) :=
  ⟨by decide, by decide, by decide,
    c9_registry "bogus" "x" ⟨[], none⟩ [] (by decide) (by decide)
      (by decide)⟩

/-- C9 counterexample: `createStorageDriver` given the unregistered
default-provider name `"x"` raises no error at all — it returns a driver
with an empty registry and no default provider set, silently proceeding
with no provider instead of failing with `ProviderNotFoundError`. -/
theorem c9_counterexample :
    createStorageDriver (some "x") [] = ⟨[], none⟩ := by
  decide

/-- Every flag produced by a successful `statAll` is the `stat` of that
name under the listed directory. -/
theorem statAll_mem (fs : Fs) (p : List String) :
    ∀ (files : List String) (stats : List (String × Bool)),
      statAll fs p files = .ok stats →
      ∀ x ∈ stats, fsStatIsDir fs (p ++ [x.1]) = .ok x.2 := by
  intro files
  induction files with
  | nil =>
    intro stats h x hx
    cases h
    cases hx
  | cons n rest ih =>
    intro stats h x hx
    cases hd : fsStatIsDir fs (p ++ [n]) with
    | error e => rw [statAll, hd] at h; cases h
    | ok d =>
      cases hr : statAll fs p rest with
      | error e => rw [statAll, hd, hr] at h; cases h
      | ok xs =>
        rw [statAll, hd, hr] at h
        cases h
        rcases List.mem_cons.mp hx with hx1 | hx2
        · subst hx1; exact hd
        · exact ih xs hr x hx2

/-- C10 (amended).  For the `{basePath, baseUrl}` local adapter, `list`
resolves with the empty array when the resolved directory does not exist
(ENOENT), and every name it returns denotes a regular file — subdirectory
entries are filtered out.  It does not, however, resolve for *every*
directory value: a non-ENOENT filesystem error (e.g. ENOTDIR when the
directory path names a regular file) is re-thrown. -/
theorem c10_local_list (fs : Fs) (basePath dirAbsent dirOk : String)
    (res : List String)
    (h1 : fsLookup fs (segsOf basePath ++ segsOf dirAbsent) = none)
    (h2 : localList fs basePath dirOk = .ok res) :
    localList fs basePath dirAbsent = .ok [] ∧
    ∀ n ∈ res, ∃ c,
      fsLookup fs (segsOf basePath ++ (segsOf dirOk ++ [n]))
        = some (FsEntry.file c) := by
  constructor
  · simp [localList, localListRaw, fsReaddir, h1]
  · intro n hn
    cases hr : fsReaddir fs (segsOf basePath ++ segsOf dirOk) with
    | error e =>
      have hraw : localListRaw fs basePath dirOk = .error e := by
        simp only [localListRaw, hr]
      rw [localList, hraw] at h2
      cases e <;> simp_all
    | ok files =>
      cases hs : statAll fs (segsOf basePath ++ segsOf dirOk) files with
      | error e =>
        have hraw : localListRaw fs basePath dirOk = .error e := by
          simp only [localListRaw, hr, hs]
        rw [localList, hraw] at h2
        cases e <;> simp_all
      | ok stats =>
        have hraw : localListRaw fs basePath dirOk
            = .ok ((stats.filter (fun x => !x.2)).map (fun x => x.1)) := by
          simp only [localListRaw, hr, hs]
        rw [localList, hraw] at h2
        have hres : res = (stats.filter (fun x => !x.2)).map (fun x => x.1) := by
          cases h2; rfl
        subst hres
        rcases List.mem_map.mp hn with ⟨x, hxmem, hxeq⟩
        have hxf := List.mem_filter.mp hxmem
        have hstat := statAll_mem fs (segsOf basePath ++ segsOf dirOk)
          files stats hs x hxf.1
        have hfalse : x.2 = false := by
          cases hx2 : x.2 <;> simp_all
        rw [hxeq] at hstat
        rw [hfalse] at hstat
        rw [List.append_assoc] at hstat
        cases hlk : fsLookup fs (segsOf basePath ++ (segsOf dirOk ++ [n])) with
        | none => simp [fsStatIsDir, hlk] at hstat
        | some entry =>
          cases entry with
          | file c => exact ⟨c, rfl⟩
          | dir => simp [fsStatIsDir, hlk] at hstat

/-- Witness for `c10_local_list` at concrete inputs: `base/sub` holds a
regular file `a.txt` and a subdirectory `d`; listing `sub` returns only
`a.txt`, and listing the absent `nope` returns `[]`. -/
theorem c10_local_list_witness :
    fsLookup [(["base"], FsEntry.dir), (["base", "sub"], FsEntry.dir),
        (["base", "sub", "a.txt"], FsEntry.file [1]),
        (["base", "sub", "d"], FsEntry.dir)]
      (segsOf "base" ++ segsOf "nope") = none ∧
    localList [(["base"], FsEntry.dir), (["base", "sub"], FsEntry.dir),
        (["base", "sub", "a.txt"], FsEntry.file [1]),
        (["base", "sub", "d"], FsEntry.dir)] "base" "sub"
      = .ok ["a.txt"] ∧
    (localList [(["base"], FsEntry.dir), (["base", "sub"], FsEntry.dir),
        (["base", "sub", "a.txt"], FsEntry.file [1]),
        (["base", "sub", "d"], FsEntry.dir)] "base" "nope" = .ok [] ∧
    ∀ n ∈ ["a.txt"], ∃ c,
      fsLookup [(["base"], FsEntry.dir), (["base", "sub"], FsEntry.dir),
          (["base", "sub", "a.txt"], FsEntry.file [1]),
          (["base", "sub", "d"], FsEntry.dir)]
        (segsOf "base" ++ (segsOf "sub" ++ [n]))
        = some (FsEntry.file c)) :=
  ⟨by decide, by rfl,
    c10_local_list [(["base"], FsEntry.dir), (["base", "sub"], FsEntry.dir),
        (["base", "sub", "a.txt"], FsEntry.file [1]),
        (["base", "sub", "d"], FsEntry.dir)]
      "base" "nope" "sub" ["a.txt"] (by decide) (by rfl)⟩

/-- C10 counterexample: when the directory path names a regular file,
`readdir` fails with ENOTDIR, which the catch clause re-throws — `list`
rejects instead of resolving. -/
theorem c10_counterexample :
    localList [(["base"], FsEntry.dir), (["base", "f.txt"], FsEntry.file [1])]
      "base" "f.txt" = .error FsErr.enotdir := by
  rfl

end StorageSpec
